import Mathlib

/-!
Verification development for the RAuthp TOTP command-line tool.

The Rust sources (`src/otp.rs`, `src/keyring.rs`, `src/main.rs`) are shallowly
embedded below: bytes are `Nat` values below 256, 32-bit machine words are
`Nat` values reduced modulo `2 ^ 32`, byte strings are `List Nat`, and the
impure clock of `OtpGenerator::get_time` becomes an explicit `time` argument.
The external keyring service is modelled as an explicit list of stored
entries threaded through the operations that use it.
-/

namespace RAuthp

/-! ## SHA-1 (the `sha1` crate primitive used through `Hmac<Sha1>`) -/

/-- `2 ^ 32`, the modulus of 32-bit machine arithmetic. -/
def w32 : Nat := 4294967296

/-- Left rotation of a 32-bit word by `n` bits. -/
def rotl32 (n x : Nat) : Nat :=
  ((x <<< n) % w32) ||| ((x % w32) >>> (32 - n))

/-- The SHA-1 round function `f` for round `i`. -/
def sha1_f (i b c d : Nat) : Nat :=
  if i < 20 then (b &&& c) ||| ((b ^^^ 4294967295) &&& d)
  else if i < 40 then b ^^^ c ^^^ d
  else if i < 60 then (b &&& c) ||| (b &&& d) ||| (c &&& d)
  else b ^^^ c ^^^ d

/-- The SHA-1 round constant `K` for round `i`. -/
def sha1_k (i : Nat) : Nat :=
  if i < 20 then 1518500249
  else if i < 40 then 1859775393
  else if i < 60 then 2400959708
  else 3395469782

/-- Big-endian bytes of `n`, `numBytes` wide (`u64::to_be_bytes` and friends). -/
def toBeBytes (numBytes n : Nat) : List Nat :=
  (List.range numBytes).map (fun i => (n >>> (8 * (numBytes - 1 - i))) % 256)

/-- Pack bytes into big-endian 32-bit words, four bytes per word. -/
def bytesToWords : List Nat → List Nat
  | b0 :: b1 :: b2 :: b3 :: rest =>
      (b0 * 16777216 + b1 * 65536 + b2 * 256 + b3) :: bytesToWords rest
  | _ => []

/-- Message-schedule expansion: `acc` holds the words produced so far, most
recent first; each step prepends `rotl1 (w3 ^^^ w8 ^^^ w14 ^^^ w16)`. -/
def sha1_ws_aux : Nat → List Nat → List Nat
  | 0, acc => acc
  | n + 1, acc =>
      let v := rotl32 1 ((acc.getD 2 0) ^^^ (acc.getD 7 0) ^^^
                         (acc.getD 13 0) ^^^ (acc.getD 15 0))
      sha1_ws_aux n (v :: acc)

/-- The 80-word message schedule of one SHA-1 block. -/
def sha1_schedule (ws16 : List Nat) : List Nat :=
  (sha1_ws_aux 64 ws16.reverse).reverse

/-- The 80 compression rounds, starting at round index `i`. -/
def sha1_rounds : Nat → List Nat → Nat × Nat × Nat × Nat × Nat →
    Nat × Nat × Nat × Nat × Nat
  | _, [], st => st
  | i, w :: ws, (a, b, c, d, e) =>
      let t := (rotl32 5 a + sha1_f i b c d + e + sha1_k i + w) % w32
      sha1_rounds (i + 1) ws (t, a, rotl32 30 b, c, d)

/-- Process one 64-byte block, updating the 5-word chaining state. -/
def sha1_block (h : Nat × Nat × Nat × Nat × Nat) (block : List Nat) :
    Nat × Nat × Nat × Nat × Nat :=
  let (h0, h1, h2, h3, h4) := h
  let ws := sha1_schedule (bytesToWords block)
  let (a, b, c, d, e) := sha1_rounds 0 ws (h0, h1, h2, h3, h4)
  ((h0 + a) % w32, (h1 + b) % w32, (h2 + c) % w32, (h3 + d) % w32, (h4 + e) % w32)

/-- Process `n` consecutive 64-byte blocks of `bytes`. -/
def sha1_blocks : Nat → Nat × Nat × Nat × Nat × Nat → List Nat →
    Nat × Nat × Nat × Nat × Nat
  | 0, h, _ => h
  | n + 1, h, bytes => sha1_blocks n (sha1_block h (bytes.take 64)) (bytes.drop 64)

/-- SHA-1 padding: a `0x80` byte, zeros to 56 mod 64, then the bit length
as an 8-byte big-endian integer. -/
def sha1_pad (msg : List Nat) : List Nat :=
  let l := msg.length
  msg ++ [128] ++ List.replicate ((119 - l % 64) % 64) 0 ++ toBeBytes 8 (8 * l)

/-- The SHA-1 digest (20 bytes) of a byte string. -/
def sha1 (msg : List Nat) : List Nat :=
  let padded := sha1_pad msg
  let (h0, h1, h2, h3, h4) :=
    sha1_blocks (padded.length / 64)
      (1732584193, 4023233417, 2562383102, 271733878, 3285377520) padded
  toBeBytes 4 h0 ++ toBeBytes 4 h1 ++ toBeBytes 4 h2 ++ toBeBytes 4 h3 ++
    toBeBytes 4 h4

/-! ## HMAC-SHA1 (the `hmac` crate's `Hmac<Sha1>`) -/

/-- HMAC-SHA1 (RFC 2104): keys longer than the 64-byte block are hashed
first, shorter keys are zero-padded; then the usual ipad/opad construction. -/
def hmacSha1 (key msg : List Nat) : List Nat :=
  let k0 := if 64 < key.length then sha1 key ++ List.replicate 44 0
            else key ++ List.replicate (64 - key.length) 0
  let ipad := k0.map (fun b => b ^^^ 54)
  let opad := k0.map (fun b => b ^^^ 92)
  sha1 (opad ++ sha1 (ipad ++ msg))

/-- `Hmac::<Sha1>::new_from_slice` from the `hmac` crate: the HMAC key-setup
accepts keys of every length, so the `InvalidLength` error never occurs. -/
def hmac_new_from_slice (key : List Nat) : Except Unit (List Nat) :=
  Except.ok key

/-! ## `src/otp.rs` -/

/-- `OtpGenerator` (src/otp.rs). -/
structure OtpGenerator where
  secret_bytes : List Nat
  interval : Nat
  nr_digits : Nat
deriving DecidableEq

/-- `OtpCode` (src/otp.rs). -/
structure OtpCode where
  value : Nat
  validity_sec : Nat
  nr_digits : Nat
deriving DecidableEq

/-- `OtpGenerator::dt` (src/otp.rs): RFC 4226 §5.4 dynamic truncation,
with the out-of-range default `0` standing in for the (never taken)
panicking branch of Rust slice indexing. -/
def dt (hmac_output : List Nat) : Nat :=
  let offset_bits := (hmac_output.getD 19 0) &&& 15
  (((hmac_output.getD offset_bits 0) &&& 127) <<< 24) |||
    (((hmac_output.getD (offset_bits + 1) 0) &&& 255) <<< 16) |||
    (((hmac_output.getD (offset_bits + 2) 0) &&& 255) <<< 8) |||
    ((hmac_output.getD (offset_bits + 3) 0) &&& 255)

/-- `OtpGenerator::time_to_next_generation` (src/otp.rs), with the clock
passed explicitly. -/
def time_to_next_generation (g : OtpGenerator) (time : Nat) : Nat :=
  g.interval - time % g.interval

/-- `OtpGenerator::generate` (src/otp.rs), with the clock passed
explicitly: HOTP over the TOTP counter `time / interval`. -/
def generate (g : OtpGenerator) (time : Nat) : Except Unit OtpCode :=
  let counter := time / g.interval
  match hmac_new_from_slice g.secret_bytes with
  | Except.error _ => Except.error ()
  | Except.ok key =>
      let hmac_result := hmacSha1 key (toBeBytes 8 counter)
      let sbits := dt hmac_result
      let result := sbits % 10 ^ g.nr_digits
      Except.ok ⟨result, time_to_next_generation g time, g.nr_digits⟩

/-- Dynamic truncation in the claim's words: the big-endian unsigned integer
formed from the 4 bytes `mac[offset..offset+4]`, where
`offset = mac[19] & 0x0F` and the most significant bit of the first of those
4 bytes is masked to zero. -/
def dt_claim (mac : List Nat) : Nat :=
  let offset := (mac.getD 19 0) &&& 15
  ((mac.getD offset 0) &&& 127) * 16777216 + (mac.getD (offset + 1) 0) * 65536 +
    (mac.getD (offset + 2) 0) * 256 + mac.getD (offset + 3) 0

/-- The decimal rendering of `OtpCode`'s value in `impl Display for OtpCode`
(src/otp.rs): the format string `{:0>dgts$}` pads the decimal digits of
`value` on the left with zeros to at least `nr_digits` places. Digits are
listed most significant first. -/
def format_value (value dgts : Nat) : List Nat :=
  let s := if value = 0 then [0] else (Nat.digits 10 value).reverse
  List.replicate (dgts - s.length) 0 ++ s

/-! ## Base32 validation (`src/main.rs`) -/

/-- Membership in the Base32 alphabet `[A-Z2-7]` of `BASE32_REGEX`. -/
def isBase32Char (c : Char) : Bool :=
  ('A' ≤ c && c ≤ 'Z') || ('2' ≤ c && c ≤ '7')

/-- The regex `^[A-Z2-7]+=*$` (src/main.rs, `BASE32_REGEX`): one or more
alphabet characters followed by zero or more `=`. -/
def base32_regex_match (s : List Char) : Bool :=
  let data := s.takeWhile isBase32Char
  !data.isEmpty && (s.drop data.length).all (fun c => c == '=')

/-- `check_base_32_string` (src/main.rs). `String::find` returns the index
of the first `=`; on inputs past the regex all characters are ASCII, so the
byte index coincides with the character index. -/
def check_base_32_string (s : List Char) : Bool :=
  if !base32_regex_match s then false
  else if s.length % 8 != 0 then false
  else match s.findIdx? (fun c => c == '=') with
    | some i => [2, 4, 5, 7].contains (i % 8)
    | none => true

/-- The validity predicate in the claim's words: pattern `[A-Z2-7]+=*`,
total length a multiple of 8, and, when padding is present, the number of
non-padding characters in the final 8-character quantum lies in
`{2, 4, 5, 7}`. -/
def base32_valid_claim (s : List Char) : Bool :=
  base32_regex_match s && s.length % 8 == 0 &&
    (!(s.contains '=') ||
      [2, 4, 5, 7].contains
        (((s.drop (s.length - 8)).filter (fun c => !(c == '='))).length))

/-! ## `src/keyring.rs`, with the external secret service modelled as an
explicit list of stored entries -/

/-- `Keyring::ATTRIBUTE_KEY`. -/
def ATTRIBUTE_KEY : String := "rauthp_secret_id"

/-- `Keyring::COMMON_ATTRIBUTE_KEY`. -/
def COMMON_ATTRIBUTE_KEY : String := "application_id"

/-- `Keyring::COMMON_ATTRIBUTE_VALUE`. -/
def COMMON_ATTRIBUTE_VALUE : String := "25fa6cf5-ba20-481d-b382-f3acab4da54e"

/-- `Keyring::secrets_common_attribute`. -/
def secrets_common_attribute : List (String × String) :=
  [(COMMON_ATTRIBUTE_KEY, COMMON_ATTRIBUTE_VALUE)]

/-- `Keyring::secret_attributes`: the common attribute map with the
per-secret name inserted under `ATTRIBUTE_KEY`. -/
def secret_attributes (name : String) : List (String × String) :=
  secrets_common_attribute ++ [(ATTRIBUTE_KEY, name)]

/-- One entry persisted in the external secret service: the label passed to
`create_item`, its attribute map, and its payload. -/
structure StoreEntry where
  label : String
  attrs : List (String × String)
  value : String
deriving DecidableEq

/-- `oo7`'s `search_items` matching: an item matches a query when its
attribute map contains every queried key-value pair. -/
def entry_matches (e : StoreEntry) (query : List (String × String)) : Bool :=
  query.all (fun kv => List.lookup kv.1 e.attrs == some kv.2)

/-- `Secret` (src/keyring.rs). -/
structure Secret where
  name : String
  secret : String
deriving DecidableEq

/-- `Keyring::get_secret` (src/keyring.rs): search by the name attributes;
zero matches is `none`, more than one is an error, otherwise the single
match's payload. -/
def get_secret (st : List StoreEntry) (name : String) :
    Except String (Option Secret) :=
  match st.filter (fun e => entry_matches e (secret_attributes name)) with
  | [] => Except.ok none
  | [e] => Except.ok (some ⟨name, e.value⟩)
  | _ => Except.error "Too many results"

/-- `Keyring::store_secret` (src/keyring.rs): an explicit `get_secret`
lookup guards `create_item`; the new state is returned alongside the
result. -/
def store_secret (st : List StoreEntry) (name secret : String) :
    Except String Unit × List StoreEntry :=
  match get_secret st name with
  | Except.error e => (Except.error e, st)
  | Except.ok (some _) => (Except.error "Secret already exists", st)
  | Except.ok none =>
      (Except.ok (), st ++ [⟨name, secret_attributes name, secret⟩])

/-- `Keyring::delete_secret` (src/keyring.rs): `oo7`'s `delete` removes
every item matching the name attributes. -/
def delete_secret (st : List StoreEntry) (name : String) :
    Except String Unit × List StoreEntry :=
  (Except.ok (), st.filter (fun e => !entry_matches e (secret_attributes name)))

/-- An item as returned by `search_items` in `get_all_secrets`, together
with the outcomes of the two per-item round-trips: `secret_fails` models a
failure of `elt.secret()`, `attrs_fails` a failure of `elt.attributes()`. -/
structure FetchedItem where
  attrs : List (String × String)
  value : String
  secret_fails : Bool
  attrs_fails : Bool
deriving DecidableEq

/-- Matching for fetched items, as `entry_matches`. -/
def fetched_matches (e : FetchedItem) (query : List (String × String)) : Bool :=
  query.all (fun kv => List.lookup kv.1 e.attrs == some kv.2)

/-- The per-item body of the `map` in `Keyring::get_all_secrets`: the
let-else chain over the secret round-trip, the attribute round-trip, and
the name attribute. -/
def decode_item (e : FetchedItem) : Except String Secret :=
  if e.secret_fails then
    Except.error "Failed to retrieve the value of a secret"
  else if e.attrs_fails then
    Except.error "Failed to retrive the name of a secret"
  else match List.lookup ATTRIBUTE_KEY e.attrs with
    | none => Except.error "Unexpected data retrieved from the keyring"
    | some name => Except.ok ⟨name, e.value⟩

/-- `collect::<Result<Vec<Secret>, _>>`: left-to-right collection that
stops at the first error. -/
def collect_items : List FetchedItem → Except String (List Secret)
  | [] => Except.ok []
  | e :: rest =>
      match decode_item e with
      | Except.error err => Except.error err
      | Except.ok s =>
          match collect_items rest with
          | Except.error err => Except.error err
          | Except.ok ss => Except.ok (s :: ss)

/-- `Keyring::get_all_secrets` (src/keyring.rs): search by the common
attribute, then decode every match, aborting on the first failure. -/
def get_all_secrets (items : List FetchedItem) : Except String (List Secret) :=
  collect_items (items.filter (fun e => fetched_matches e secrets_common_attribute))

/-! ## The `add` command path (`src/main.rs`) -/

/-- A line printed by the process, tagged with its stream. -/
inductive OutLine where
  | stdout (s : String)
  | stderr (s : String)
deriving DecidableEq

/-- Models `str::to_uppercase` as the character-wise ASCII case mapping;
the Base32 alphabet the subsequent validation admits is ASCII-only, on
which the two coincide. -/
def to_uppercase (s : String) : String :=
  ⟨s.data.map Char.toUpper⟩

/-- `handle_add_cmd` (src/main.rs): uppercase the secret, validate it as
Base32, then store it; returns the handler's boolean result, the new store
state and the lines printed. The source returns `true` after the
`store_secret` match regardless of which arm ran. -/
def handle_add_cmd (st : List StoreEntry) (name secret : String) :
    Bool × List StoreEntry × List OutLine :=
  let secretU := to_uppercase secret
  if !check_base_32_string secretU.data then
    (false, st,
      [OutLine.stderr "Invalid secret format, should be a valid base32 string"])
  else
    match store_secret st name secretU with
    | (Except.ok _, st') => (true, st', [OutLine.stdout "Secret added"])
    | (Except.error e, st') =>
        (true, st',
          [OutLine.stderr ("Failed to add the secret to the keyring: " ++ e)])

/-- The exit code `main` (src/main.rs) produces for an `add` invocation:
`exit(1)` when the handler returned `false`, otherwise the normal exit 0. -/
def main_add_exit_code (st : List StoreEntry) (name secret : String) : Nat :=
  if (handle_add_cmd st name secret).1 then 0 else 1

/-! ## Helper lemmas -/

/-- Disjoint bitwise or is addition: or-ing a value shifted past `k` bits
with a value below `2 ^ k` adds them. -/
theorem or_add_aux (x y k M : Nat) (hM : 2 ^ k = M) (hy : y < M) :
    (x <<< k) ||| y = M * x + y := by
  subst hM
  rw [Nat.shiftLeft_eq, Nat.mul_comm x (2 ^ k)]
  exact (Nat.mul_add_lt_is_or hy x).symm

/-- The four-byte big-endian assembly in `dt`, rewritten to a sum. -/
theorem or4_eq_add (a b c d : Nat) (ha : a < 128) (hb : b < 256)
    (hc : c < 256) (hd : d < 256) :
    (a <<< 24) ||| (b <<< 16) ||| (c <<< 8) ||| d
      = a * 16777216 + b * 65536 + c * 256 + d := by
  rw [Nat.or_assoc, Nat.or_assoc,
      or_add_aux c d 8 256 (by norm_num) hd,
      or_add_aux b (256 * c + d) 16 65536 (by norm_num) (by omega),
      or_add_aux a (65536 * b + (256 * c + d)) 24 16777216 (by norm_num) (by omega)]
  omega

/-- Reading a byte list with default `0` always yields a byte when every
element is a byte. -/
theorem getD_byte (l : List Nat) (hl : ∀ b ∈ l, b < 256) (i : Nat) :
    l.getD i 0 < 256 := by
  rw [List.getD_eq_getElem?_getD]
  cases h : l[i]? with
  | none => simp
  | some b =>
      have : b ∈ l := by
        have hi : i < l.length := by
          by_contra hge
          rw [List.getElem?_eq_none (by omega)] at h
          cases h
        rw [List.getElem?_eq_getElem hi] at h
        cases h
        exact List.getElem_mem hi
      simpa using hl b this

/-- Masking a byte with `0xff` is the identity. -/
theorem byte_and_255 (x : Nat) (hx : x < 256) : x &&& 255 = x := by
  have h := Nat.and_pow_two_sub_one_of_lt_two_pow (n := 8) (by simpa using hx)
  norm_num at h
  exact h

/-- The zero-padded decimal rendering of a value below `10 ^ d` has exactly
`d` digits when `1 ≤ d`. -/
theorem format_value_length (v d : Nat) (h1 : 1 ≤ d) (hv : v < 10 ^ d) :
    (format_value v d).length = d := by
  have hlen : (if v = 0 then [0] else (Nat.digits 10 v).reverse).length ≤ d := by
    by_cases h0 : v = 0
    · simpa [h0] using h1
    · simp only [h0, if_false, List.length_reverse]
      by_contra hgt
      push_neg at hgt
      have hle : 10 ^ (Nat.digits 10 v).length ≤ 10 * v :=
        Nat.base_pow_length_digits_le 10 v (by norm_num) h0
      have hpow : 10 ^ (d + 1) ≤ 10 ^ (Nat.digits 10 v).length :=
        Nat.pow_le_pow_right (by norm_num) hgt
      rw [pow_succ] at hpow
      have := le_trans hpow hle
      omega
  simp only [format_value, List.length_append, List.length_replicate]
  omega

/-- The entry built by `store_secret` matches its own attribute query. -/
theorem entry_matches_self (name secret : String) :
    entry_matches ⟨name, secret_attributes name, secret⟩
      (secret_attributes name) = true := by
  simp [entry_matches, secret_attributes, secrets_common_attribute,
        List.lookup, ATTRIBUTE_KEY, COMMON_ATTRIBUTE_KEY]

/-! ## Claim theorems -/

set_option maxRecDepth 100000 in
/-- C2: for the secret whose bytes are the ASCII string
"12345678901234567890", with interval 30 and digit count 8, `generate` at
Unix time 59 yields the numeric value 94287082 (RFC 6238 test vector,
counter = 1), valid for 1 more second. -/
theorem generate_rfc6238_vector_t59 :
    generate ⟨[49, 50, 51, 52, 53, 54, 55, 56, 57, 48,
               49, 50, 51, 52, 53, 54, 55, 56, 57, 48], 30, 8⟩ 59
      = Except.ok ⟨94287082, 1, 8⟩ := by
  rfl

/-- C10: the keyed-hash setup accepts a key of any length, so the error
branch of `generate` is unreachable: `generate` returns `Ok` for every
secret byte sequence and positive interval. -/
theorem generate_always_ok (secret : List Nat) (interval d t : Nat)
    (h : 0 < interval) :
    ∃ code : OtpCode, generate ⟨secret, interval, d⟩ t = Except.ok code :=
  ⟨_, rfl⟩

/-- Witness for C10 at a concrete input. -/
theorem generate_always_ok_witness :
    0 < 30 ∧ ∃ code : OtpCode,
      generate ⟨[1, 2, 3], 30, 6⟩ 11 = Except.ok code :=
  ⟨by decide, generate_always_ok [1, 2, 3] 30 6 11 (by decide)⟩

/-- C8: for every positive interval and time, the `seconds_remaining`
field computed by `generate` equals `interval - t % interval` and lies in
`[1, interval]`. -/
theorem generate_seconds_remaining (secret : List Nat) (d interval t : Nat)
    (h : 0 < interval) :
    ∀ code : OtpCode, generate ⟨secret, interval, d⟩ t = Except.ok code →
      code.validity_sec = interval - t % interval ∧
      1 ≤ code.validity_sec ∧ code.validity_sec ≤ interval := by
  intro code hc
  have hmod : t % interval < interval := Nat.mod_lt _ h
  simp only [generate, hmac_new_from_slice, time_to_next_generation] at hc
  cases hc
  refine ⟨rfl, ?_, ?_⟩
  · show 1 ≤ interval - t % interval
    omega
  · show interval - t % interval ≤ interval
    omega

set_option maxRecDepth 100000 in
/-- Witness for C8 at the RFC 6238 vector. -/
theorem generate_seconds_remaining_witness :
    0 < 30 ∧
      ((OtpCode.mk 94287082 1 8).validity_sec = 30 - 59 % 30 ∧
       1 ≤ (OtpCode.mk 94287082 1 8).validity_sec ∧
       (OtpCode.mk 94287082 1 8).validity_sec ≤ 30) :=
  ⟨by decide,
   generate_seconds_remaining
     [49, 50, 51, 52, 53, 54, 55, 56, 57, 48,
      49, 50, 51, 52, 53, 54, 55, 56, 57, 48] 8 30 59 (by decide)
     ⟨94287082, 1, 8⟩ (by rfl)⟩

/-- C1 (code bug): with a secret named "alice" already stored, `add alice
GEZDGNBVGY3TQOJQ` makes the store report a duplicate-name failure and the
handler prints the failure on the error stream, yet `handle_add_cmd`
returns `true` and the process exits with code 0, not 1. -/
theorem add_cmd_exit_zero_despite_store_failure :
    (store_secret [⟨"alice", secret_attributes "alice", "GEZDGNBVGY3TQOJQ"⟩]
        "alice" "GEZDGNBVGY3TQOJQ").1
      = Except.error "Secret already exists" ∧
    (handle_add_cmd [⟨"alice", secret_attributes "alice", "GEZDGNBVGY3TQOJQ"⟩]
        "alice" "GEZDGNBVGY3TQOJQ").2.2
      = [OutLine.stderr
          "Failed to add the secret to the keyring: Secret already exists"] ∧
    main_add_exit_code [⟨"alice", secret_attributes "alice", "GEZDGNBVGY3TQOJQ"⟩]
        "alice" "GEZDGNBVGY3TQOJQ" = 0 :=
  ⟨rfl, by decide, by decide⟩

/-- C4 (code bug): the validator accepts "MY======" and rejects "AAAA" and
the empty string as the claim states, but it also accepts
"AAAAAAA=========" (7 data characters, 9 padding characters), whose final
8-character quantum consists entirely of padding — the claimed
final-quantum rule, restated by `base32_valid_claim`, rejects it. -/
theorem check_base_32_string_vs_claim :
    check_base_32_string "MY======".data = true ∧
    check_base_32_string "AAAA".data = false ∧
    check_base_32_string "".data = false ∧
    check_base_32_string "AAAAAAA=========".data = true ∧
    base32_valid_claim "AAAAAAA=========".data = false := by
  refine ⟨?_, ?_, ?_, ?_, ?_⟩ <;> decide

/-- C3: dynamic truncation returns the big-endian unsigned integer formed
from the four bytes at `offset = mac[19] & 0x0F`, the most significant bit
of the first masked to zero; the result is below `2 ^ 31` and every
accessed index lies within the 20-byte array. -/
theorem dt_matches_claim (mac : List Nat) (hlen : mac.length = 20)
    (hbytes : ∀ b ∈ mac, b < 256) :
    dt mac = dt_claim mac ∧ dt mac < 2 ^ 31 ∧
      ((mac.getD 19 0) &&& 15) + 3 < 20 := by
  have hb : ∀ i, mac.getD i 0 < 256 := getD_byte mac hbytes
  have hoff : (mac.getD 19 0) &&& 15 ≤ 15 := Nat.and_le_right
  have ha : (mac.getD ((mac.getD 19 0) &&& 15) 0) &&& 127 < 128 :=
    Nat.lt_succ_of_le Nat.and_le_right
  have heq : dt mac = dt_claim mac := by
    simp only [dt, dt_claim]
    rw [byte_and_255 _ (hb _), byte_and_255 _ (hb _), byte_and_255 _ (hb _)]
    exact or4_eq_add _ _ _ _ ha (hb _) (hb _) (hb _)
  refine ⟨heq, ?_, by omega⟩
  rw [heq]
  simp only [dt_claim]
  have h31 : (2 : Nat) ^ 31 = 2147483648 := by norm_num
  have h1 := hb (((mac.getD 19 0) &&& 15) + 1)
  have h2 := hb (((mac.getD 19 0) &&& 15) + 2)
  have h3 := hb (((mac.getD 19 0) &&& 15) + 3)
  omega

/-- Witness for C3 at the HMAC output for counter 1 of the RFC 4226 test
secret. -/
theorem dt_matches_claim_witness :
    ([117, 164, 138, 25, 212, 203, 225, 0, 100, 78,
      138, 193, 57, 126, 234, 116, 122, 45, 51, 171] : List Nat).length = 20 ∧
    (∀ b ∈ ([117, 164, 138, 25, 212, 203, 225, 0, 100, 78,
             138, 193, 57, 126, 234, 116, 122, 45, 51, 171] : List Nat), b < 256) ∧
    (dt [117, 164, 138, 25, 212, 203, 225, 0, 100, 78,
         138, 193, 57, 126, 234, 116, 122, 45, 51, 171]
       = dt_claim [117, 164, 138, 25, 212, 203, 225, 0, 100, 78,
                   138, 193, 57, 126, 234, 116, 122, 45, 51, 171] ∧
     dt [117, 164, 138, 25, 212, 203, 225, 0, 100, 78,
         138, 193, 57, 126, 234, 116, 122, 45, 51, 171] < 2 ^ 31 ∧
     (([117, 164, 138, 25, 212, 203, 225, 0, 100, 78,
        138, 193, 57, 126, 234, 116, 122, 45, 51, 171] : List Nat).getD 19 0 &&& 15)
        + 3 < 20) :=
  ⟨by decide, by decide, dt_matches_claim _ (by decide) (by decide)⟩

/-- C7: for every digit count `d` in `[1, 8]` and every secret, the numeric
value `generate` produces is below `10 ^ d` and its zero-padded decimal
rendering consists of exactly `d` digits. -/
theorem generate_value_digits (secret : List Nat) (t interval d : Nat)
    (h1 : 1 ≤ d) (h2 : d ≤ 8) :
    ∀ code : OtpCode, generate ⟨secret, interval, d⟩ t = Except.ok code →
      code.value < 10 ^ d ∧ (format_value code.value d).length = d := by
  intro code hc
  simp only [generate, hmac_new_from_slice] at hc
  cases hc
  have hv : dt (hmacSha1 secret (toBeBytes 8 (t / interval))) % 10 ^ d < 10 ^ d :=
    Nat.mod_lt _ (pow_pos (by norm_num) d)
  exact ⟨hv, format_value_length _ d h1 hv⟩

set_option maxRecDepth 100000 in
/-- Witness for C7 at the RFC 6238 vector. -/
theorem generate_value_digits_witness :
    1 ≤ 8 ∧ 8 ≤ 8 ∧
      ((OtpCode.mk 94287082 1 8).value < 10 ^ 8 ∧
       (format_value (OtpCode.mk 94287082 1 8).value 8).length = 8) :=
  ⟨by decide, by decide,
   generate_value_digits
     [49, 50, 51, 52, 53, 54, 55, 56, 57, 48,
      49, 50, 51, 52, 53, 54, 55, 56, 57, 48] 59 30 8 (by decide) (by decide)
     ⟨94287082, 1, 8⟩ (by rfl)⟩

/-- C5: `store_secret` reports the duplicate-name failure when the prior
lookup finds the name already stored (and in any lookup-reported failure
performs no insertion), and when no entry with the name exists it succeeds
and appends exactly one entry matching both the application-scope and the
per-secret name attribute. -/
theorem store_secret_spec (st : List StoreEntry) (name secret : String) :
    ((st.filter (fun e => entry_matches e (secret_attributes name))).length = 1 →
        (store_secret st name secret).1 = Except.error "Secret already exists") ∧
    (st.filter (fun e => entry_matches e (secret_attributes name)) ≠ [] →
        (store_secret st name secret).1.isOk = false ∧
        (store_secret st name secret).2 = st) ∧
    (st.filter (fun e => entry_matches e (secret_attributes name)) = [] →
        (store_secret st name secret).1 = Except.ok () ∧
        (store_secret st name secret).2
          = st ++ [⟨name, secret_attributes name, secret⟩] ∧
        entry_matches ⟨name, secret_attributes name, secret⟩
          (secret_attributes name) = true) := by
  cases hf : st.filter (fun e => entry_matches e (secret_attributes name)) with
  | nil =>
      refine ⟨?_, ?_, fun _ => ?_⟩
      · intro h1; simp at h1
      · intro hne; exact absurd rfl hne
      · exact ⟨by simp [store_secret, get_secret, hf],
               by simp [store_secret, get_secret, hf],
               entry_matches_self name secret⟩
  | cons e tail =>
      cases tail with
      | nil =>
          refine ⟨fun _ => ?_, fun _ => ⟨?_, ?_⟩, fun h0 => ?_⟩
          · simp [store_secret, get_secret, hf]
          · simp [store_secret, get_secret, hf, Except.isOk, Except.toBool]
          · simp [store_secret, get_secret, hf]
          · simp at h0
      | cons e2 rest =>
          refine ⟨fun h1 => ?_, fun _ => ⟨?_, ?_⟩, fun h0 => ?_⟩
          · simp at h1
          · simp [store_secret, get_secret, hf, Except.isOk, Except.toBool]
          · simp [store_secret, get_secret, hf]
          · simp at h0

/-- Witness for C5: storing into an empty store succeeds and appends the
fully tagged entry. -/
theorem store_secret_spec_witness :
    List.filter (fun e => entry_matches e (secret_attributes "alice"))
        ([] : List StoreEntry) = [] ∧
    ((store_secret ([] : List StoreEntry) "alice" "AAAAAAAA").1 = Except.ok () ∧
     (store_secret ([] : List StoreEntry) "alice" "AAAAAAAA").2
       = [] ++ [⟨"alice", secret_attributes "alice", "AAAAAAAA"⟩] ∧
     entry_matches ⟨"alice", secret_attributes "alice", "AAAAAAAA"⟩
       (secret_attributes "alice") = true) :=
  ⟨by decide, (store_secret_spec [] "alice" "AAAAAAAA").2.2 (by decide)⟩

/-- C9: every entry present after a `store_secret` or `delete_secret` call
either was already stored or carries the fixed application-scope attribute
and exactly one name attribute, equal to the account name. -/
theorem persisted_entries_tagged (st : List StoreEntry)
    (name secret dname : String) (e : StoreEntry) :
    (e ∈ (store_secret st name secret).2 →
        e ∈ st ∨
          (List.lookup COMMON_ATTRIBUTE_KEY e.attrs = some COMMON_ATTRIBUTE_VALUE ∧
           List.lookup ATTRIBUTE_KEY e.attrs = some name ∧
           (e.attrs.filter (fun kv => kv.1 == ATTRIBUTE_KEY)).length = 1)) ∧
    (e ∈ (delete_secret st dname).2 → e ∈ st) := by
  constructor
  · intro hmem
    cases hf : st.filter (fun x => entry_matches x (secret_attributes name)) with
    | nil =>
        simp [store_secret, get_secret, hf] at hmem
        rcases hmem with h | h
        · exact Or.inl h
        · subst h
          exact Or.inr ⟨rfl, rfl, rfl⟩
    | cons x tail =>
        cases tail with
        | nil =>
            simp [store_secret, get_secret, hf] at hmem
            exact Or.inl hmem
        | cons y rest =>
            simp [store_secret, get_secret, hf] at hmem
            exact Or.inl hmem
  · intro hmem
    simp only [delete_secret] at hmem
    exact (List.mem_filter.mp hmem).1

/-- Witness for C9: the entry created by storing into an empty store
carries both attributes. -/
theorem persisted_entries_tagged_witness :
    (⟨"bob", secret_attributes "bob", "S"⟩ : StoreEntry)
        ∈ (store_secret [] "bob" "S").2 ∧
    ((⟨"bob", secret_attributes "bob", "S"⟩ : StoreEntry) ∈ ([] : List StoreEntry) ∨
      (List.lookup COMMON_ATTRIBUTE_KEY
          (StoreEntry.mk "bob" (secret_attributes "bob") "S").attrs
          = some COMMON_ATTRIBUTE_VALUE ∧
       List.lookup ATTRIBUTE_KEY
          (StoreEntry.mk "bob" (secret_attributes "bob") "S").attrs = some "bob" ∧
       ((StoreEntry.mk "bob" (secret_attributes "bob") "S").attrs.filter
          (fun kv => kv.1 == ATTRIBUTE_KEY)).length = 1)) :=
  ⟨by decide,
   (persisted_entries_tagged [] "bob" "S" "x"
      ⟨"bob", secret_attributes "bob", "S"⟩).1 (by decide)⟩

/-- Left-to-right collection fails whenever some element fails to decode. -/
theorem collect_items_isOk_false (l : List FetchedItem) :
    (∃ e ∈ l, (decode_item e).isOk = false) → (collect_items l).isOk = false := by
  induction l with
  | nil => rintro ⟨e, he, -⟩; cases he
  | cons x xs ih =>
      rintro ⟨e, he, hdec⟩
      cases hd : decode_item x with
      | error err => simp [collect_items, hd, Except.isOk, Except.toBool]
      | ok s =>
          rcases List.mem_cons.mp he with rfl | hmem
          · rw [hd] at hdec; simp [Except.isOk, Except.toBool] at hdec
          · have hxs := ih ⟨e, hmem, hdec⟩
            cases hcc : collect_items xs with
            | error err2 => simp [collect_items, hd, hcc, Except.isOk, Except.toBool]
            | ok ss => rw [hcc] at hxs; simp [Except.isOk, Except.toBool] at hxs

/-- Left-to-right collection over decodable elements returns their
decoded secrets in order. -/
theorem collect_items_ok_eq (l : List FetchedItem)
    (h : ∀ e ∈ l, (decode_item e).isOk = true) :
    collect_items l = Except.ok (l.map (fun e =>
      ⟨(List.lookup ATTRIBUTE_KEY e.attrs).getD "", e.value⟩)) := by
  induction l with
  | nil => rfl
  | cons x xs ih =>
      have hx := h x (List.mem_cons_self x xs)
      have hxeq : decode_item x
          = Except.ok ⟨(List.lookup ATTRIBUTE_KEY x.attrs).getD "", x.value⟩ := by
        revert hx
        unfold decode_item
        by_cases h1 : x.secret_fails
        · simp [h1, Except.isOk, Except.toBool]
        · by_cases h2 : x.attrs_fails
          · simp [h1, h2, Except.isOk, Except.toBool]
          · cases hl : List.lookup ATTRIBUTE_KEY x.attrs with
            | none => simp [h1, h2, hl, Except.isOk, Except.toBool]
            | some n => simp [h1, h2, hl]
      simp [collect_items, hxeq,
            ih (fun e he => h e (List.mem_cons_of_mem x he))]

/-- C6: `get_all_secrets` is all-or-nothing: if any matching entry fails to
yield its secret value or its name attribute the whole call fails, and
otherwise it returns one `Secret` per matching entry, carrying that entry's
name attribute and value. -/
theorem get_all_secrets_all_or_nothing (items : List FetchedItem) :
    ((∃ e ∈ items.filter (fun e => fetched_matches e secrets_common_attribute),
        (decode_item e).isOk = false) →
      (get_all_secrets items).isOk = false) ∧
    ((∀ e ∈ items.filter (fun e => fetched_matches e secrets_common_attribute),
        (decode_item e).isOk = true) →
      get_all_secrets items = Except.ok
        ((items.filter (fun e => fetched_matches e secrets_common_attribute)).map
          (fun e => ⟨(List.lookup ATTRIBUTE_KEY e.attrs).getD "", e.value⟩))) :=
  ⟨fun h => collect_items_isOk_false _ h, fun h => collect_items_ok_eq _ h⟩

/-- Witness for C6: a single matching entry whose secret round-trip fails
makes the whole listing fail. -/
theorem get_all_secrets_all_or_nothing_witness :
    (∃ e ∈ List.filter (fun e => fetched_matches e secrets_common_attribute)
        [(⟨[(COMMON_ATTRIBUTE_KEY, COMMON_ATTRIBUTE_VALUE)], "SEC", true, false⟩ :
            FetchedItem)],
      (decode_item e).isOk = false) ∧
    (get_all_secrets
        [(⟨[(COMMON_ATTRIBUTE_KEY, COMMON_ATTRIBUTE_VALUE)], "SEC", true, false⟩ :
            FetchedItem)]).isOk = false :=
  ⟨by decide, (get_all_secrets_all_or_nothing _).1 (by decide)⟩

end RAuthp
